import Mathlib

set_option maxRecDepth 4000

/-!
Verification development for the spotify-history repository.

The aggregation and ranking engine of the repository is shallowly embedded:
a pandas `DataFrame` of play events becomes a `List` of records, each pandas
column operation becomes the corresponding field computation, `groupby`
becomes key-deduplication plus per-key filtering, and `sort_values` becomes a
stable insertion sort by the same keys.  Timestamps are modelled as whole
minutes since the epoch 1970-01-01 00:00 UTC and calendar dates as day
indices since that epoch; the civil/ISO calendar conversions below implement
the standard Gregorian algorithms used by Python's `datetime` library.

Notes on fidelity:
* pandas `groupby` orders group keys alphabetically; here group keys appear
  in first-occurrence order.  No statement proved below depends on the
  relative order of entities whose final sort keys tie, which is the only
  place the two conventions can differ after the value sort.
* pandas `sort_values` uses an unstable quicksort, so the order among tied
  sort keys is unspecified there; the stable insertion sort used here is one
  admissible refinement.
-/

namespace SpotifyHistory

/-! ### Calendar arithmetic (days counted from 1970-01-01, a Thursday) -/

/-- Gregorian leap-year test. -/
def isLeapYear (y : Nat) : Bool :=
  y % 4 == 0 && (!(y % 100 == 0) || y % 400 == 0)

/-- Number of days in Gregorian year `y`. -/
def daysInYear (y : Nat) : Nat :=
  if isLeapYear y then 366 else 365

/-- Day index (days since 1970-01-01) of the civil date `y-m-d`.
Valid for years `1600 ≤ y` (all inputs used here are ≥ 1969), months 1-12. -/
def daysFromCivil (y m d : Nat) : Nat :=
  let y2 := if m ≤ 2 then y - 1 else y
  let era := y2 / 400
  let yoe := y2 % 400
  let mp := (m + 9) % 12
  let doy := (153 * mp + 2) / 5 + d - 1
  let doe := yoe * 365 + yoe / 4 - yoe / 100 + doy
  era * 146097 + doe - 719468

/-- Civil date `(year, month, day)` of a day index (days since 1970-01-01). -/
def civilFromDays (n : Nat) : Nat × Nat × Nat :=
  let z := n + 719468
  let era := z / 146097
  let doe := z % 146097
  let yoe := (doe - doe / 1460 + doe / 36524 - doe / 146096) / 365
  let y := yoe + era * 400
  let doy := doe - (365 * yoe + yoe / 4 - yoe / 100)
  let mp := (5 * doy + 2) / 153
  let d := doy - (153 * mp + 2) / 5 + 1
  let m := if mp < 10 then mp + 3 else mp - 9
  (if m ≤ 2 then y + 1 else y, m, d)

/-- Weekday of a day index, Monday = 0 (Python `date.weekday`);
day 0 (1970-01-01) is a Thursday. -/
def weekdayOfDay (n : Nat) : Nat :=
  (n + 3) % 7

/-- ISO-8601 week-date `(isoYear, isoWeek)` of a day index: the ISO year is
the civil year of the Thursday of the day's Monday-based week, and the week
number is the ordinal of that Thursday inside that year. -/
def isoWeekYear (n : Nat) : Nat × Nat :=
  let thursday := n + 3 - weekdayOfDay n
  let y := (civilFromDays thursday).1
  let jan1 := daysFromCivil y 1 1
  (y, (thursday - jan1) / 7 + 1)

/-- Number of ISO weeks in ISO year `y`: 53 when Jan 1 falls on a Thursday,
or on a Wednesday of a leap year; otherwise 52. -/
def isoWeeksInYear (y : Nat) : Nat :=
  let wd := weekdayOfDay (daysFromCivil y 1 1)
  if wd == 3 || (isLeapYear y && wd == 2) then 53 else 52

/-- English weekday names as produced by `calendar.day_name`, Monday first. -/
def dayNamesList : List String :=
  ["Monday", "Tuesday", "Wednesday", "Thursday", "Friday", "Saturday", "Sunday"]

/-! ### Data model

`Event` is one raw play record after the ingestion collaborator has parsed
the JSON and renamed columns (`ts`/`endTime` → `endTime`,
`ms_played`/`msPlayed` → `msPlayed`, artist/track/album names): `endTime` is
the parsed timestamp in whole minutes since the epoch.  `Row` is one row of
the processed table after `load_and_process_data` has attached the derived
columns of `src/data_processing.py` lines 49-57. -/

structure Event where
  artistName : String
  trackName : String
  albumName : String
  /-- Parsed `endTime`, in minutes since 1970-01-01 00:00 UTC. -/
  endTime : Nat
  msPlayed : Nat
  deriving DecidableEq, Repr

structure Row where
  artistName : String
  trackName : String
  albumName : String
  /-- The shifted `endTime` column (the code overwrites the column). -/
  endTime : Nat
  msPlayed : Nat
  /-- `date` column: day index of `endTime`. -/
  date : Nat
  /-- `dow` column: weekday, Monday = 0. -/
  dow : Nat
  /-- `day_of_week_str` column. -/
  dayOfWeekStr : String
  /-- `time` column: hour of day. -/
  time : Nat
  /-- `week` column: ISO week number. -/
  week : Nat
  /-- `year` column: ISO week-year. -/
  year : Nat
  /-- `minutesPlayed` column: `msPlayed / 60000`. -/
  minutesPlayed : ℚ
  deriving DecidableEq, Repr

/-- The feature-engineering block of `load_and_process_data`
(`src/data_processing.py` lines 49-57): the `endTime` column is first
replaced by `endTime + timedelta(hours=16)` (line 50), and every derived
column is then computed from the shifted column.  `msPlayed / 60000` is the
exact rational `Rat.divInt msPlayed 60000`. -/
def addFeatures (e : Event) : Row :=
  let t := e.endTime + 16 * 60
  let date := t / 1440
  let dow := weekdayOfDay date
  { artistName := e.artistName
    trackName := e.trackName
    albumName := e.albumName
    endTime := t
    msPlayed := e.msPlayed
    date := date
    dow := dow
    dayOfWeekStr := dayNamesList.getD dow ""
    time := t % 1440 / 60
    week := (isoWeekYear date).2
    year := (isoWeekYear date).1
    minutesPlayed := Rat.divInt e.msPlayed 60000 }

/-- Total of the `minutesPlayed` column. -/
def sumMinutes (l : List Row) : ℚ :=
  (l.map Row.minutesPlayed).sum

/-- `all_data[all_data["msPlayed"] > min_ms_played]`
(`src/data_processing.py` line 60). -/
def filterMinMs (minMs : Nat) (l : List Row) : List Row :=
  l.filter fun r => decide (minMs < r.msPlayed)

/-- `minutesPlayed` total of the rows of one artist. -/
def artistTotal (l : List Row) (a : String) : ℚ :=
  sumMinutes (l.filter fun r => decide (r.artistName = a))

/-- `all_data.groupby("artistName").filter(lambda x: x["minutesPlayed"].sum()
> min_minutes_played_artist)` (`src/data_processing.py` line 63): keep a row
iff the total minutes of its artist, over the whole input table, exceed the
threshold.  pandas `GroupBy.filter` preserves the original row order. -/
def filterArtistMin (minMin : ℚ) (l : List Row) : List Row :=
  l.filter fun r => decide (minMin < artistTotal l r.artistName)

/-- `load_and_process_data` (`src/data_processing.py` lines 26-65), from the
point where the ingestion collaborator hands over parsed records: add the
derived columns, drop events with `msPlayed ≤ min_ms_played`, then drop all
events of artists whose total minutes over the remaining rows are
`≤ min_minutes_played_artist`. -/
def load_and_process_data (minMs : Nat) (minMin : ℚ) (raw : List Event) : List Row :=
  filterArtistMin minMin (filterMinMs minMs (raw.map addFeatures))

/-- The two quality filters of `load_and_process_data`, as applied once
(per-event `msPlayed` floor, then per-artist total-minutes floor). -/
def pipelineFilters (minMs : Nat) (minMin : ℚ) (l : List Row) : List Row :=
  filterArtistMin minMin (filterMinMs minMs l)

/-- `minutesPlayed` total of the rows with a given key (generic `groupby`
group total). -/
def keyTotal {K : Type} [DecidableEq K] (k : Row → K) (l : List Row) (x : K) : ℚ :=
  sumMinutes (l.filter fun r => decide (k r = x))

/-! ### Aggregation and ranking (`src/analysis.py`) -/

/-- Descending order on the summed-minutes component: `p` may precede `q`
iff `q`'s total is at most `p`'s (`sort_values(ascending=False)`). -/
def sndDescRel {α : Type} (p q : α × ℚ) : Prop :=
  q.2 ≤ p.2

instance {α : Type} : DecidableRel (@sndDescRel α) :=
  fun p q => inferInstanceAs (Decidable (q.2 ≤ p.2))

instance {α : Type} : IsTotal (α × ℚ) sndDescRel :=
  ⟨fun p q => le_total q.2 p.2⟩

instance {α : Type} : IsTrans (α × ℚ) sndDescRel :=
  ⟨fun _ _ _ h1 h2 => le_trans h2 h1⟩

/-- `aggregate_artist_minutes` (`src/analysis.py` lines 4-13):
`df.groupby("artistName")["minutesPlayed"].sum().sort_values(ascending=False)`,
as the list of `(artistName, total)` pairs in descending-total order. -/
def aggregate_artist_minutes (l : List Row) : List (String × ℚ) :=
  (((l.map Row.artistName).dedup).map fun a => (a, artistTotal l a)).insertionSort
    sndDescRel

/-- `get_artist_rank` (`src/analysis.py` lines 26-35): `None` for the
sentinel `"All Artists"`, `None` when the artist is absent from the minutes
aggregate, else `index.get_loc(artist) + 1`. -/
def get_artist_rank (l : List Row) (artist : String) : Option Nat :=
  if artist = "All Artists" then none
  else
    match (aggregate_artist_minutes l).findIdx? (fun p => p.1 == artist) with
    | none => none
    | some i => some (i + 1)

/-- `get_yearly_artist_rank` (`src/analysis.py` lines 38-47): `None` for the
sentinel, else `get_artist_rank` on the rows of the requested year. -/
def get_yearly_artist_rank (l : List Row) (artist : String) (year : Nat) : Option Nat :=
  if artist = "All Artists" then none
  else get_artist_rank (l.filter fun r => decide (r.year = year)) artist

/-- `aggregate_album_minutes` (`src/analysis.py` lines 129-138): minutes per
`(artistName, albumName)` pair, sorted descending. -/
def aggregate_album_minutes (l : List Row) : List ((String × String) × ℚ) :=
  (((l.map fun r => (r.artistName, r.albumName)).dedup).map fun k =>
    (k, keyTotal (fun r => (r.artistName, r.albumName)) l k)).insertionSort
    sndDescRel

/-- One row of the `compute_top_songs` aggregate: one `(artist, track)`
group with its `Listens = ("msPlayed", "count")` value. -/
structure SongAgg where
  artistName : String
  trackName : String
  /-- `Listens` column: the number of events in the group. -/
  listens : Nat
  deriving DecidableEq, Repr

/-- `sort_values("Listens", ascending=False)` order for `compute_top_songs`. -/
def songListensDescRel (p q : SongAgg) : Prop :=
  q.listens ≤ p.listens

instance : DecidableRel songListensDescRel :=
  fun p q => inferInstanceAs (Decidable (q.listens ≤ p.listens))

instance : IsTotal SongAgg songListensDescRel :=
  ⟨fun p q => Nat.le_total q.listens p.listens⟩

instance : IsTrans SongAgg songListensDescRel :=
  ⟨fun _ _ _ h1 h2 => le_trans h2 h1⟩

instance : IsRefl SongAgg songListensDescRel :=
  ⟨fun _ => le_refl _⟩

/-- The `(artistName, trackName)` group keys of a table. -/
def songKeys (l : List Row) : List (String × String) :=
  (l.map fun r => (r.artistName, r.trackName)).dedup

/-- The sorted rows of `compute_top_songs` (`src/analysis.py` lines
277-295): group by `(artistName, trackName)`, aggregate
`Listens = ("msPlayed", "count")`, sort by `Listens` descending. -/
def compute_top_songs_sorted (l : List Row) : List SongAgg :=
  ((songKeys l).map fun k =>
    { artistName := k.1, trackName := k.2
      listens :=
        (l.filter fun r => decide (r.artistName = k.1 ∧ r.trackName = k.2)).length
      : SongAgg }).insertionSort songListensDescRel

/-- The `rank` column of `compute_top_songs`:
`range(1, len(songs_df) + 1)`. -/
def compute_top_songs_ranks (l : List Row) : List Nat :=
  (List.range (compute_top_songs_sorted l).length).map (· + 1)

/-- One row of the yearly track leaderboard: one `(trackName, artistName)`
group with `Listens = ("endTime", "count")` and
`Total_Minutes = ("minutesPlayed", "sum")`. -/
structure TrackAgg where
  trackName : String
  artistName : String
  /-- `Listens` column: the number of events in the group. -/
  listens : Nat
  /-- `Total_Minutes` column. -/
  totalMinutes : ℚ
  deriving DecidableEq, Repr

/-- `sort_values(["Total_Minutes", "Listens"], ascending=False)` order:
by total minutes descending, ties by listens descending. -/
def leaderboardRel (p q : TrackAgg) : Prop :=
  q.totalMinutes < p.totalMinutes ∨
    (q.totalMinutes = p.totalMinutes ∧ q.listens ≤ p.listens)

instance : DecidableRel leaderboardRel :=
  fun p q => inferInstanceAs (Decidable
    (q.totalMinutes < p.totalMinutes ∨
      (q.totalMinutes = p.totalMinutes ∧ q.listens ≤ p.listens)))

instance : IsTotal TrackAgg leaderboardRel := by
  constructor
  intro p q
  rcases lt_trichotomy p.totalMinutes q.totalMinutes with h | h | h
  · exact Or.inr (Or.inl h)
  · rcases Nat.le_total q.listens p.listens with h2 | h2
    · exact Or.inl (Or.inr ⟨h.symm, h2⟩)
    · exact Or.inr (Or.inr ⟨h, h2⟩)
  · exact Or.inl (Or.inl h)

instance : IsTrans TrackAgg leaderboardRel := by
  constructor
  intro a b c h1 h2
  rcases h1 with h1 | ⟨h1, h1l⟩
  · rcases h2 with h2 | ⟨h2, _⟩
    · exact Or.inl (lt_trans h2 h1)
    · exact Or.inl (h2 ▸ h1)
  · rcases h2 with h2 | ⟨h2, h2l⟩
    · exact Or.inl (h1 ▸ h2)
    · exact Or.inr ⟨h2.trans h1, le_trans h2l h1l⟩

/-- The `(trackName, artistName)` group keys of a table. -/
def trackKeys (l : List Row) : List (String × String) :=
  (l.map fun r => (r.trackName, r.artistName)).dedup

/-- `compute_yearly_track_leaderboard` (`src/analysis.py` lines 298-320):
group by `(trackName, artistName)`, aggregate listens and total minutes,
sort by `["Total_Minutes", "Listens"]` descending. -/
def compute_yearly_track_leaderboard (l : List Row) : List TrackAgg :=
  ((trackKeys l).map fun k =>
    { trackName := k.1, artistName := k.2
      listens :=
        (l.filter fun r => decide (r.trackName = k.1 ∧ r.artistName = k.2)).length
      totalMinutes := keyTotal (fun r => (r.trackName, r.artistName)) l k
      : TrackAgg }).insertionSort leaderboardRel

/-- `sort_values("Total Minutes", ascending=False)` order for the legacy
inline leaderboard. -/
def tMinutesDescRel (p q : TrackAgg) : Prop :=
  q.totalMinutes ≤ p.totalMinutes

instance : DecidableRel tMinutesDescRel :=
  fun p q => inferInstanceAs (Decidable (q.totalMinutes ≤ p.totalMinutes))

instance : IsTotal TrackAgg tMinutesDescRel :=
  ⟨fun p q => le_total q.totalMinutes p.totalMinutes⟩

instance : IsTrans TrackAgg tMinutesDescRel :=
  ⟨fun _ _ _ h1 h2 => le_trans h2 h1⟩

/-- `sort_values("Listens", ascending=False)` order for the legacy inline
leaderboard. -/
def tListensDescRel (p q : TrackAgg) : Prop :=
  q.listens ≤ p.listens

instance : DecidableRel tListensDescRel :=
  fun p q => inferInstanceAs (Decidable (q.listens ≤ p.listens))

instance : IsTotal TrackAgg tListensDescRel :=
  ⟨fun p q => Nat.le_total q.listens p.listens⟩

instance : IsTrans TrackAgg tListensDescRel :=
  ⟨fun _ _ _ h1 h2 => le_trans h2 h1⟩

instance : IsRefl TrackAgg tListensDescRel :=
  ⟨fun _ => le_refl _⟩

/-- The inline yearly track leaderboard of `src/spotify_history.py` `main`
(lines 265-287): group by `(trackName, artistName)` with
`minutesPlayed = ("minutesPlayed", "sum")` and
`Listens = ("endTime", "count")`, sort by `"Total Minutes"` descending,
then sort *again* by `"Listens"` descending — the second sort runs last,
so the displayed order is by listen count descending. -/
def track_leaderboard_yearly (l : List Row) : List TrackAgg :=
  ((((trackKeys l).map fun k =>
    { trackName := k.1, artistName := k.2
      listens :=
        (l.filter fun r => decide (r.trackName = k.1 ∧ r.artistName = k.2)).length
      totalMinutes := keyTotal (fun r => (r.trackName, r.artistName)) l k
      : TrackAgg }).insertionSort tMinutesDescRel).insertionSort tListensDescRel)

/-- The rows of `compute_top_albums` (`src/analysis.py` lines 171-192):
the album aggregate with hours = minutes / 60, in aggregate order. -/
def compute_top_albums_rows (l : List Row) : List ((String × String) × ℚ) :=
  (aggregate_album_minutes l).map fun p => (p.1, p.2 / 60)

/-- The `rank` column of `compute_top_albums`:
`range(1, len(albums_df) + 1)`. -/
def compute_top_albums_ranks (l : List Row) : List Nat :=
  (List.range (compute_top_albums_rows l).length).map (· + 1)

/-- `Series.rank(ascending=False)` with the default `method="average"`:
the rank of value `v` in column `col` is the count of strictly greater
entries plus the average of the 1-based positions occupied by the entries
equal to `v`. -/
def rankAverageDesc (col : List ℚ) (v : ℚ) : ℚ :=
  ((col.filter fun w => decide (v < w)).length : ℚ) +
    (((col.filter fun w => decide (w = v)).length : ℚ) + 1) / 2

/-- The merged per-event frame of `compute_top_artists`
(`src/analysis.py` lines 50-76): each event row is joined with its artist's
`hours` and the frame is assigned
`rank = d["hours"].rank(ascending=False)`, i.e. the average-method
descending rank of the row's hours value within the merged hours column. -/
def compute_top_artists_df (l : List Row) : List (Row × ℚ × ℚ) :=
  l.map fun r =>
    (r, artistTotal l r.artistName / 60,
      rankAverageDesc (l.map fun s => artistTotal l s.artistName / 60)
        (artistTotal l r.artistName / 60))

/-! ### Heatmap bucketizer (`src/charts.py`, `build_heatmap`) -/

/-- One row of the heatmap aggregate built at `src/charts.py` lines
128-141. -/
structure HeatCell where
  week : Nat
  dayName : String
  year : Nat
  minutes : ℚ
  deriving DecidableEq, Repr

/-- The observed values of the non-categorical `year` group key, sorted
ascending (pandas sorts non-categorical group levels). -/
def heatmapYears (l : List Row) : List Nat :=
  ((l.map Row.year).dedup).insertionSort (· ≤ ·)

/-- Total minutes of the events falling in one `(week, day, year)` cell. -/
def heatmapCellMinutes (l : List Row) (w : Nat) (d : String) (y : Nat) : ℚ :=
  sumMinutes (l.filter fun r =>
    decide (r.week = w ∧ r.dayOfWeekStr = d ∧ r.year = y))

/-- The heatmap aggregation of `build_heatmap` (`src/charts.py` lines
128-141): `week` is recast as a categorical with categories
`range(0, 53)` — so events in ISO week 53 fall outside the categories and
are dropped — `day_of_week_str` as a categorical over the seven weekday
names, and `groupby(["week", "day_of_week_str", "year"]).sum()` with
unobserved categories kept produces one row for every element of the
product `{0..52} × dayNames × observedYears`, in category/sorted order. -/
def heatmap_agg (l : List Row) : List HeatCell :=
  (List.range 53).flatMap fun w =>
    dayNamesList.flatMap fun d =>
      (heatmapYears l).map fun y =>
        { week := w, dayName := d, year := y
          minutes := heatmapCellMinutes l w d y }

/-- `build_date_from_pieces` (`src/data_processing.py` lines 22-23):
`datetime.strptime(f"{year}-{week}-{day}", "%Y-%W-%A").date()`, returned as
a day index.  This mirrors CPython's `%W` semantics: `julian` is computed
from the Monday-based week number (week 0 covers the days before the first
Monday), and a non-positive `julian` borrows the previous year's length, so
the parse is total and may land in the previous or next calendar year. -/
def build_date_from_pieces (year week : Nat) (dayName : String) : Int :=
  let dw := dayNamesList.indexOf dayName
  let jan1 := daysFromCivil year 1 1
  let firstW := weekdayOfDay jan1
  let julian : Int :=
    if week = 0 then 1 + (dw : Int) - (firstW : Int)
    else 1 + (((7 - firstW) % 7 : Nat) : Int) + 7 * ((week : Int) - 1) + (dw : Int)
  if julian ≤ 0 then
    (daysFromCivil (year - 1) 1 1 : Int) + (julian + (daysInYear (year - 1) : Int)) - 1
  else (jan1 : Int) + julian - 1

/-- The merge of the heatmap aggregate with the observed `date` column
(`src/charts.py` lines 157-166): each cell is paired with the distinct
dates of the source rows matching its `(week, day, year)` key (a left
merge), or with `none` when no source row matches. -/
def mergedCells (l : List Row) : List (HeatCell × Option Nat) :=
  (heatmap_agg l).flatMap fun c =>
    let ds := ((l.filter fun r =>
      decide (r.week = c.week ∧ r.dayOfWeekStr = c.dayName ∧
        r.year = c.year)).map Row.date).dedup
    if ds.isEmpty then [(c, none)] else ds.map fun d => (c, some d)

/-- Lines 168-173 of `src/charts.py`: the cells with a null date get their
`date` reconstructed by `build_date_from_pieces`, and the two parts are
concatenated.  Every merged row survives; none is skipped. -/
def heatmap_with_dates (l : List Row) : List (HeatCell × Int) :=
  (((mergedCells l).filter fun p => p.2.isNone).map fun p =>
    (p.1, build_date_from_pieces p.1.year p.1.week p.1.dayName)) ++
  ((mergedCells l).filterMap fun p => p.2.map fun d => (p.1, (d : Int)))

/-! ### Example data -/

/-- Example events from the spec's worked example: two 400000 ms plays of
Artist A and one 50000 ms play of Artist B. -/
def exEventA1 : Event :=
  { artistName := "Artist A", trackName := "Track 1", albumName := "Album 1"
    endTime := 19359 * 1440 + 600, msPlayed := 400000 }

def exEventA2 : Event :=
  { artistName := "Artist A", trackName := "Track 1", albumName := "Album 1"
    endTime := 19360 * 1440 + 610, msPlayed := 400000 }

def exEventB : Event :=
  { artistName := "Artist B", trackName := "Track 2", albumName := "Album 2"
    endTime := 19509 * 1440 + 300, msPlayed := 50000 }

def exRaw : List Event := [exEventA1, exEventA2, exEventB]

/-- A processed-table row of artist "A" attributed to (ISO) year 2022. -/
def rowA : Row :=
  { artistName := "A", trackName := "T1", albumName := "L1", endTime := 0
    msPlayed := 600000, date := 0, dow := 3, dayOfWeekStr := "Thursday"
    time := 0, week := 1, year := 2022, minutesPlayed := 10 }

/-- A processed-table row of artist "B" attributed to (ISO) year 2023. -/
def rowB : Row :=
  { artistName := "B", trackName := "T2", albumName := "L2", endTime := 0
    msPlayed := 180000, date := 365, dow := 4, dayOfWeekStr := "Friday"
    time := 0, week := 1, year := 2023, minutesPlayed := 3 }

def exRows2 : List Row := [rowA, rowB]

/-- A table in which track T1 has 10 plays and track T2 has 3 plays. -/
def exSongsRows : List Row :=
  List.replicate 10 rowA ++ List.replicate 3 rowB

/-- A three-event table: two plays of artist "A", one of artist "B". -/
def exRows7 : List Row := [rowA, rowA, rowB]

/-- A three-event table where track T1 has more total minutes (10) but
fewer listens (1) than track T2 (6 minutes over 2 listens). -/
def exRows4 : List Row := [rowA, rowB, rowB]

end SpotifyHistory

namespace SpotifyHistory

/-! ### General lemmas about the filters and groupings -/

theorem artistTotal_eq_keyTotal (l : List Row) (a : String) :
    artistTotal l a = keyTotal Row.artistName l a := rfl

/-- Filtering by a predicate on the key leaves each surviving key's group
untouched and empties every rejected key's group. -/
theorem filter_key_group {K : Type} [DecidableEq K] (k : Row → K) (p : K → Bool)
    (l : List Row) (x : K) :
    (l.filter fun r => p (k r)).filter (fun r => decide (k r = x)) =
      if p x then l.filter (fun r => decide (k r = x)) else [] := by
  induction l with
  | nil => simp
  | cons r l ih =>
    by_cases hk : k r = x
    · subst hk
      by_cases hp : p (k r)
      · simp [List.filter_cons, hp, ih]
      · simp [List.filter_cons, hp, ih]
    · by_cases hp : p (k r)
      · simp [List.filter_cons, hp, hk, ih]
      · simp [List.filter_cons, hp, hk, ih]

/-- Group totals after a key-level filter. -/
theorem keyTotal_filter_key {K : Type} [DecidableEq K] (k : Row → K) (p : K → Bool)
    (l : List Row) (x : K) :
    keyTotal k (l.filter fun r => p (k r)) x =
      if p x then keyTotal k l x else 0 := by
  unfold keyTotal
  rw [filter_key_group]
  by_cases hp : p x <;> simp [hp, sumMinutes]

theorem artistTotal_filterArtistMin (minMin : ℚ) (l : List Row) (a : String) :
    artistTotal (filterArtistMin minMin l) a =
      if minMin < artistTotal l a then artistTotal l a else 0 := by
  have h := keyTotal_filter_key Row.artistName
      (fun x => decide (minMin < artistTotal l x)) l a
  simpa [filterArtistMin, artistTotal_eq_keyTotal] using h

/-- Membership in `filterMinMs` forces the play-duration floor. -/
theorem mem_filterMinMs {minMs : Nat} {l : List Row} {r : Row}
    (h : r ∈ filterMinMs minMs l) :
    r ∈ l ∧ minMs < r.msPlayed := by
  unfold filterMinMs at h
  have h2 := List.of_mem_filter h
  exact ⟨List.mem_of_mem_filter h, by simpa using h2⟩

/-- Membership in `filterArtistMin` forces the artist's total to clear the
threshold. -/
theorem mem_filterArtistMin {minMin : ℚ} {l : List Row} {r : Row}
    (h : r ∈ filterArtistMin minMin l) :
    r ∈ l ∧ minMin < artistTotal l r.artistName := by
  have h2 := List.of_mem_filter h
  exact ⟨List.mem_of_mem_filter h, by simpa using h2⟩

/-- `sumMinutes` is invariant under permutation. -/
theorem sumMinutes_perm {l1 l2 : List Row} (h : l1.Perm l2) :
    sumMinutes l1 = sumMinutes l2 :=
  (h.map Row.minutesPlayed).sum_eq

/-- Splitting off one key's group conserves the total. -/
theorem sumMinutes_split_key {K : Type} [DecidableEq K] (k : Row → K)
    (l : List Row) (a : K) :
    sumMinutes l =
      keyTotal k l a + sumMinutes (l.filter fun r => !(decide (k r = a))) := by
  have hp := List.filter_append_perm (fun r => decide (k r = a)) l
  have h2 : sumMinutes
      ((l.filter fun r => decide (k r = a)) ++
        (l.filter fun r => !(decide (k r = a)))) = sumMinutes l :=
    sumMinutes_perm hp
  rw [← h2]
  unfold sumMinutes keyTotal sumMinutes
  rw [List.map_append, List.sum_append]

/-- Summing the per-key group totals over any duplicate-free list of keys
covering a table recovers the table's total minutes. -/
theorem sum_keyTotal_of_cover {K : Type} [DecidableEq K] (k : Row → K) :
    ∀ (keys : List K) (l : List Row), keys.Nodup → (∀ r ∈ l, k r ∈ keys) →
      (keys.map fun x => keyTotal k l x).sum = sumMinutes l := by
  intro keys
  induction keys with
  | nil =>
    intro l _ hcov
    have : l = [] := List.eq_nil_iff_forall_not_mem.mpr fun r hr => by
      simpa using hcov r hr
    subst this
    simp [sumMinutes]
  | cons a ks ih =>
    intro l hnd hcov
    have hnd2 := List.nodup_cons.mp hnd
    have hgroups : ∀ b ∈ ks, keyTotal k l b =
        keyTotal k (l.filter fun r => !(decide (k r = a))) b := by
      intro b hb
      have hba : ¬(b = a) := fun h => hnd2.1 (h ▸ hb)
      have h := keyTotal_filter_key k (fun x => !(decide (x = a))) l b
      rw [h, if_pos]
      simpa using hba
    have hcov2 : ∀ r ∈ (l.filter fun s => !(decide (k s = a))), k r ∈ ks := by
      intro r hr
      have h1 := List.mem_of_mem_filter hr
      have h2 := List.of_mem_filter hr
      have h3 : ¬(k r = a) := by simpa using h2
      rcases List.mem_cons.mp (hcov r h1) with h | h
      · exact absurd h h3
      · exact h
    have hrec := ih (l.filter fun s => !(decide (k s = a))) hnd2.2 hcov2
    have hmap : (ks.map fun x => keyTotal k l x).sum =
        (ks.map fun x =>
          keyTotal k (l.filter fun r => !(decide (k r = a))) x).sum := by
      have := List.map_congr_left hgroups
      rw [this]
    calc ((a :: ks).map fun x => keyTotal k l x).sum
        = keyTotal k l a + (ks.map fun x => keyTotal k l x).sum := by
          simp
      _ = keyTotal k l a +
          sumMinutes (l.filter fun r => !(decide (k r = a))) := by
          rw [hmap, hrec]
      _ = sumMinutes l := (sumMinutes_split_key k l a).symm

/-- The artists named in the minutes aggregate are exactly the artists
appearing in the table. -/
theorem mem_keys_aggregate_artist (l : List Row) (a : String) :
    a ∈ (aggregate_artist_minutes l).map Prod.fst ↔ a ∈ l.map Row.artistName := by
  unfold aggregate_artist_minutes
  constructor
  · intro h
    rcases List.mem_map.mp h with ⟨p, hp, hpa⟩
    have hp2 := (List.perm_insertionSort sndDescRel _).subset hp
    rcases List.mem_map.mp hp2 with ⟨b, hb, hbp⟩
    rw [← hpa, ← hbp]
    exact List.mem_dedup.mp hb
  · intro h
    have hd : a ∈ (l.map Row.artistName).dedup := List.mem_dedup.mpr h
    have hm : (a, artistTotal l a) ∈
        ((l.map Row.artistName).dedup).map fun b => (b, artistTotal l b) :=
      List.mem_map_of_mem _ hd
    have hs := (List.perm_insertionSort sndDescRel _).symm.subset hm
    exact List.mem_map.mpr ⟨(a, artistTotal l a), hs, rfl⟩

/-- An artist absent from a table has no rank in it. -/
theorem get_artist_rank_eq_none_of_absent {l : List Row} {a : String}
    (ha : a ∉ l.map Row.artistName) : get_artist_rank l a = none := by
  by_cases hs : a = "All Artists"
  · simp [get_artist_rank, hs]
  · unfold get_artist_rank
    rw [if_neg hs]
    have hidx : (aggregate_artist_minutes l).findIdx? (fun p => p.1 == a) = none := by
      apply List.findIdx?_eq_none_iff.mpr
      intro p hp
      have hne : p.1 ≠ a := by
        intro h
        exact ha ((mem_keys_aggregate_artist l a).mp
          (List.mem_map.mpr ⟨p, hp, h⟩))
      simpa using hne
    rw [hidx]

/-! ### C1: order and effect of the two normalization filters -/

/-- **C1.** `load_and_process_data` first drops every event with
`msPlayed ≤ min_ms_played` and only then applies the per-artist filter,
whose totals are computed over the already-filtered rows; consequently
every artist appearing anywhere in the result has total `minutesPlayed`
strictly above `min_minutes_played_artist`, and an artist whose total over
the event-filtered rows is at or below the threshold loses all of its
events. -/
theorem C1_filter_order_and_artist_threshold
    (raw : List Event) (minMs : Nat) (minMin : ℚ) :
    load_and_process_data minMs minMin raw =
      filterArtistMin minMin (filterMinMs minMs (raw.map addFeatures)) ∧
    (∀ r ∈ load_and_process_data minMs minMin raw,
      minMin < artistTotal (load_and_process_data minMs minMin raw) r.artistName) ∧
    (∀ a : String,
      artistTotal (filterMinMs minMs (raw.map addFeatures)) a ≤ minMin →
      ∀ r ∈ load_and_process_data minMs minMin raw, r.artistName ≠ a) := by
  refine ⟨rfl, ?_, ?_⟩
  · intro r hr
    have hm := mem_filterArtistMin (l := filterMinMs minMs (raw.map addFeatures)) hr
    have ht := artistTotal_filterArtistMin minMin
      (filterMinMs minMs (raw.map addFeatures)) r.artistName
    show minMin <
      artistTotal (filterArtistMin minMin (filterMinMs minMs (raw.map addFeatures)))
        r.artistName
    rw [ht, if_pos hm.2]
    exact hm.2
  · intro a ha r hr hra
    have hm := mem_filterArtistMin (l := filterMinMs minMs (raw.map addFeatures)) hr
    rw [hra] at hm
    exact absurd hm.2 (not_lt.mpr ha)

/-- At the worked example, the processed table retains the first Artist A
row (Artist A's post-filter total is 40/3 > 5 minutes). -/
theorem exA1_mem_load : addFeatures exEventA1 ∈ load_and_process_data 10000 5 exRaw := by
  simp only [load_and_process_data, filterArtistMin, filterMinMs, artistTotal,
    sumMinutes, exRaw, List.map_cons, List.map_nil, List.filter_cons, List.filter_nil]
  norm_num [addFeatures, exEventA1, exEventA2, exEventB]
  norm_num [List.filter_cons, List.filter_nil]
  simp
  norm_num [Rat.divInt_eq_div]

/-- Witness for C1 at the spec's worked example: Artist B's post-event-filter
total (5/6 of a minute) is at most 5, so by the theorem the retained row of
Artist A is not a row of Artist B (and Artist B keeps no rows). -/
theorem C1_filter_witness :
    artistTotal (filterMinMs 10000 (exRaw.map addFeatures)) "Artist B" ≤ 5 ∧
    (addFeatures exEventA1).artistName ≠ "Artist B" := by
  refine ⟨by with_unfolding_all decide, ?_⟩
  exact (C1_filter_order_and_artist_threshold exRaw 10000 5).2.2 "Artist B"
    (by with_unfolding_all decide) (addFeatures exEventA1) exA1_mem_load

/-! ### C10: the filter pipeline is a fixed point after one application -/

/-- **C10.** Applying the per-event `msPlayed` filter followed by the
per-artist total-minutes filter twice yields exactly the table produced by
applying them once. -/
theorem C10_pipeline_filters_fixed_point (minMs : Nat) (minMin : ℚ) (l : List Row) :
    pipelineFilters minMs minMin (pipelineFilters minMs minMin l) =
      pipelineFilters minMs minMin l := by
  have h1 : filterMinMs minMs (filterArtistMin minMin (filterMinMs minMs l)) =
      filterArtistMin minMin (filterMinMs minMs l) := by
    show List.filter _ (filterArtistMin minMin (filterMinMs minMs l)) =
      filterArtistMin minMin (filterMinMs minMs l)
    apply List.filter_eq_self.mpr
    intro r hr
    have hb := (mem_filterMinMs (mem_filterArtistMin hr).1).2
    simpa using hb
  have h2 : ∀ r ∈ filterArtistMin minMin (filterMinMs minMs l),
      minMin < artistTotal (filterArtistMin minMin (filterMinMs minMs l)) r.artistName := by
    intro r hr
    have hm := mem_filterArtistMin hr
    have ht := artistTotal_filterArtistMin minMin (filterMinMs minMs l) r.artistName
    rw [ht, if_pos hm.2]
    exact hm.2
  show filterArtistMin minMin
      (filterMinMs minMs (filterArtistMin minMin (filterMinMs minMs l))) =
    filterArtistMin minMin (filterMinMs minMs l)
  rw [h1]
  show List.filter _ (filterArtistMin minMin (filterMinMs minMs l)) =
    filterArtistMin minMin (filterMinMs minMs l)
  apply List.filter_eq_self.mpr
  intro r hr
  simpa using h2 r hr

/-! ### C2: rank queries -/

/-- **C2.** `get_artist_rank` returns `none` for the sentinel
`"All Artists"` on any table; the aggregate it consults is sorted by
descending total minutes; for an artist absent from the aggregate it
returns `none`; for an artist found at 0-based position `i` of the
aggregate it returns `i + 1`; and `get_yearly_artist_rank` is exactly
`get_artist_rank` on the year-restricted table, so an artist with no plays
in a year has no rank there. -/
theorem C2_artist_rank_cases (l : List Row) (a : String) (y : Nat) :
    get_artist_rank l "All Artists" = none ∧
    List.Sorted sndDescRel (aggregate_artist_minutes l) ∧
    (a ∉ (aggregate_artist_minutes l).map Prod.fst → get_artist_rank l a = none) ∧
    (∀ i : Nat,
      (aggregate_artist_minutes l).findIdx? (fun p => p.1 == a) = some i →
      a ≠ "All Artists" → get_artist_rank l a = some (i + 1)) ∧
    get_yearly_artist_rank l a y =
      get_artist_rank (l.filter fun r => decide (r.year = y)) a ∧
    ((∀ r ∈ l, r.year = y → r.artistName ≠ a) →
      get_yearly_artist_rank l a y = none) := by
  refine ⟨by simp [get_artist_rank], List.sorted_insertionSort sndDescRel _,
    ?_, ?_, ?_, ?_⟩
  · intro h
    apply get_artist_rank_eq_none_of_absent
    intro hmem
    exact h ((mem_keys_aggregate_artist l a).mpr hmem)
  · intro i hi ha
    unfold get_artist_rank
    rw [if_neg ha, hi]
  · by_cases hs : a = "All Artists"
    · subst hs
      simp [get_yearly_artist_rank, get_artist_rank]
    · simp [get_yearly_artist_rank, hs]
  · intro h
    unfold get_yearly_artist_rank
    by_cases hs : a = "All Artists"
    · rw [if_pos hs]
    · rw [if_neg hs]
      apply get_artist_rank_eq_none_of_absent
      intro hmem
      rcases List.mem_map.mp hmem with ⟨r, hr, hra⟩
      have h1 := List.mem_of_mem_filter hr
      have h2 : r.year = y := by simpa using List.of_mem_filter hr
      exact h r h1 h2 hra

/-- Witness for C2 on a concrete two-row table: an artist not in the table
has no rank, and artist "A" (which has a lifetime rank) has no rank in
2023, a year in which it has no plays. -/
theorem C2_artist_rank_witness :
    get_artist_rank exRows2 "Nobody" = none ∧
    get_yearly_artist_rank exRows2 "A" 2023 = none := by
  constructor
  · exact (C2_artist_rank_cases exRows2 "Nobody" 2023).2.2.1
      (by with_unfolding_all decide)
  · exact (C2_artist_rank_cases exRows2 "A" 2023).2.2.2.2.2
      (by with_unfolding_all decide)

/-! ### C9: grouping conserves total minutes -/

/-- **C9.** For a non-empty table, the per-artist totals of
`aggregate_artist_minutes` sum to the table's total `minutesPlayed`, and
likewise the per-`(artist, album)` totals of `aggregate_album_minutes`. -/
theorem C9_aggregation_conserves_minutes (l : List Row) (_hne : l ≠ []) :
    ((aggregate_artist_minutes l).map Prod.snd).sum = sumMinutes l ∧
    ((aggregate_album_minutes l).map Prod.snd).sum = sumMinutes l := by
  constructor
  · unfold aggregate_artist_minutes
    have hperm := (List.perm_insertionSort sndDescRel
      (((l.map Row.artistName).dedup).map fun a => (a, artistTotal l a))).map Prod.snd
    rw [hperm.sum_eq, List.map_map]
    have := sum_keyTotal_of_cover Row.artistName ((l.map Row.artistName).dedup) l
      (List.nodup_dedup _)
      (fun r hr => List.mem_dedup.mpr (List.mem_map_of_mem Row.artistName hr))
    simpa [Function.comp, artistTotal_eq_keyTotal] using this
  · unfold aggregate_album_minutes
    have hperm := (List.perm_insertionSort sndDescRel
      (((l.map fun r => (r.artistName, r.albumName)).dedup).map fun k =>
        (k, keyTotal (fun r => (r.artistName, r.albumName)) l k))).map Prod.snd
    rw [hperm.sum_eq, List.map_map]
    have := sum_keyTotal_of_cover (fun r => (r.artistName, r.albumName))
      ((l.map fun r => (r.artistName, r.albumName)).dedup) l
      (List.nodup_dedup _)
      (fun r hr => List.mem_dedup.mpr
        (List.mem_map_of_mem (fun r => (r.artistName, r.albumName)) hr))
    simpa [Function.comp] using this

/-- Witness for C9 on a concrete non-empty table. -/
theorem C9_aggregation_witness :
    exRows2 ≠ [] ∧
    ((aggregate_artist_minutes exRows2).map Prod.snd).sum = sumMinutes exRows2 := by
  refine ⟨by simp [exRows2], ?_⟩
  exact (C9_aggregation_conserves_minutes exRows2 (by simp [exRows2])).1

/-! ### C3: the top-songs view sorts by listen count -/

theorem sorted_compute_top_songs (l : List Row) :
    List.Sorted songListensDescRel (compute_top_songs_sorted l) := by
  unfold compute_top_songs_sorted
  exact List.sorted_insertionSort songListensDescRel _

/-- **C3.** In `compute_top_songs` the rows are ordered by `Listens`
descending: positions never increase in listen count, and in particular a
row with 10 listens always precedes a row with 3 listens, whatever their
minutes. -/
theorem C3_top_songs_listens_order (l : List Row)
    (i j : Fin (compute_top_songs_sorted l).length) :
    (i ≤ j →
      ((compute_top_songs_sorted l).get j).listens ≤
        ((compute_top_songs_sorted l).get i).listens) ∧
    (((compute_top_songs_sorted l).get i).listens = 10 →
      ((compute_top_songs_sorted l).get j).listens = 3 →
      (i : ℕ) < (j : ℕ)) := by
  have hs := sorted_compute_top_songs l
  constructor
  · intro hij
    exact hs.rel_get_of_le hij
  · intro h10 h3
    rcases lt_trichotomy (i : ℕ) (j : ℕ) with h | h | h
    · exact h
    · exfalso
      have hij : i = j := Fin.ext h
      rw [hij, h3] at h10
      exact absurd h10 (by omega)
    · exfalso
      have hji : j < i := Fin.lt_def.mpr h
      have hle := hs.rel_get_of_le (le_of_lt hji)
      simp only [songListensDescRel] at hle
      rw [h10, h3] at hle
      exact absurd hle (by omega)

/-- Witness for C3 on a table where T1 has 10 plays and T2 has 3: the
10-listen row sits at position 0, the 3-listen row at position 1. -/
theorem C3_top_songs_witness :
    ((compute_top_songs_sorted exSongsRows).get ⟨0, by decide⟩).listens = 10 ∧
    ((compute_top_songs_sorted exSongsRows).get ⟨1, by decide⟩).listens = 3 ∧
    ((0 : ℕ) < (1 : ℕ)) := by
  refine ⟨by decide, by decide, ?_⟩
  exact (C3_top_songs_listens_order exSongsRows ⟨0, by decide⟩ ⟨1, by decide⟩).2
    (by decide) (by decide)

/-! ### C4: the yearly track leaderboard sorts by minutes, then listens -/

theorem sorted_compute_yearly_track_leaderboard (l : List Row) :
    List.Sorted leaderboardRel (compute_yearly_track_leaderboard l) := by
  unfold compute_yearly_track_leaderboard
  exact List.sorted_insertionSort leaderboardRel _

/-- In `compute_yearly_track_leaderboard` (`src/analysis.py`), a row with
strictly more total minutes precedes every row with fewer, and among rows
with equal total minutes one with strictly more listens precedes. -/
theorem C4_yearly_leaderboard_order (l : List Row)
    (i j : Fin (compute_yearly_track_leaderboard l).length) :
    (((compute_yearly_track_leaderboard l).get j).totalMinutes <
        ((compute_yearly_track_leaderboard l).get i).totalMinutes →
      (i : ℕ) < (j : ℕ)) ∧
    (((compute_yearly_track_leaderboard l).get i).totalMinutes =
        ((compute_yearly_track_leaderboard l).get j).totalMinutes →
      ((compute_yearly_track_leaderboard l).get j).listens <
        ((compute_yearly_track_leaderboard l).get i).listens →
      (i : ℕ) < (j : ℕ)) := by
  have hs := sorted_compute_yearly_track_leaderboard l
  constructor
  · intro hm
    rcases lt_trichotomy (i : ℕ) (j : ℕ) with h | h | h
    · exact h
    · exfalso
      have hij : i = j := Fin.ext h
      rw [hij] at hm
      exact absurd hm (lt_irrefl _)
    · exfalso
      have hji : j < i := Fin.lt_def.mpr h
      rcases hs.rel_get_of_lt hji with h2 | ⟨h2, _⟩
      · exact absurd (lt_trans hm h2) (lt_irrefl _)
      · rw [h2] at hm
        exact absurd hm (lt_irrefl _)
  · intro hm hl
    rcases lt_trichotomy (i : ℕ) (j : ℕ) with h | h | h
    · exact h
    · exfalso
      have hij : i = j := Fin.ext h
      rw [hij] at hl
      exact absurd hl (lt_irrefl _)
    · exfalso
      have hji : j < i := Fin.lt_def.mpr h
      rcases hs.rel_get_of_lt hji with h2 | ⟨_, h2⟩
      · rw [hm] at h2
        exact absurd h2 (lt_irrefl _)
      · exact absurd (lt_of_le_of_lt h2 hl) (lt_irrefl _)

theorem sorted_track_leaderboard_yearly (l : List Row) :
    List.Sorted tListensDescRel (track_leaderboard_yearly l) := by
  unfold track_leaderboard_yearly
  exact List.sorted_insertionSort tListensDescRel _

/-- **C4 (amended).** `compute_yearly_track_leaderboard`
(`src/analysis.py`) orders its rows by total minutes descending with ties
broken by listen count descending; but the inline yearly leaderboard of
`src/spotify_history.py` `main` re-sorts by `Listens` descending after its
minutes sort, so its final order is by listen count descending — there a
row with strictly more listens precedes regardless of total minutes, and
minutes-descending primary order does not hold. -/
theorem C4_leaderboard_sort_keys (l : List Row)
    (i j : Fin (compute_yearly_track_leaderboard l).length)
    (i2 j2 : Fin (track_leaderboard_yearly l).length) :
    (((compute_yearly_track_leaderboard l).get j).totalMinutes <
        ((compute_yearly_track_leaderboard l).get i).totalMinutes →
      (i : ℕ) < (j : ℕ)) ∧
    (((compute_yearly_track_leaderboard l).get i).totalMinutes =
        ((compute_yearly_track_leaderboard l).get j).totalMinutes →
      ((compute_yearly_track_leaderboard l).get j).listens <
        ((compute_yearly_track_leaderboard l).get i).listens →
      (i : ℕ) < (j : ℕ)) ∧
    (i2 ≤ j2 →
      ((track_leaderboard_yearly l).get j2).listens ≤
        ((track_leaderboard_yearly l).get i2).listens) ∧
    (((track_leaderboard_yearly l).get j2).listens <
        ((track_leaderboard_yearly l).get i2).listens →
      (i2 : ℕ) < (j2 : ℕ)) := by
  have hold := C4_yearly_leaderboard_order l i j
  have hs := sorted_track_leaderboard_yearly l
  refine ⟨hold.1, hold.2, ?_, ?_⟩
  · intro h12
    exact hs.rel_get_of_le h12
  · intro hl
    rcases lt_trichotomy (i2 : ℕ) (j2 : ℕ) with h | h | h
    · exact h
    · exfalso
      have hij : i2 = j2 := Fin.ext h
      rw [hij] at hl
      exact absurd hl (lt_irrefl _)
    · exfalso
      have hji : j2 < i2 := Fin.lt_def.mpr h
      have hle := hs.rel_get_of_le (le_of_lt hji)
      simp only [tListensDescRel] at hle
      exact absurd (lt_of_le_of_lt hle hl) (lt_irrefl _)

/-- Witness for C4 on concrete tables: in
`compute_yearly_track_leaderboard` T1 (10 minutes) precedes T2 (3
minutes), and in the legacy leaderboard the 2-listen track precedes the
1-listen track. -/
theorem C4_leaderboard_sort_witness :
    ((compute_yearly_track_leaderboard exRows2).get
        ⟨1, by with_unfolding_all decide⟩).totalMinutes <
      ((compute_yearly_track_leaderboard exRows2).get
        ⟨0, by with_unfolding_all decide⟩).totalMinutes ∧
    ((track_leaderboard_yearly exRows4).get
        ⟨1, by with_unfolding_all decide⟩).listens <
      ((track_leaderboard_yearly exRows4).get
        ⟨0, by with_unfolding_all decide⟩).listens ∧
    ((0 : ℕ) < (1 : ℕ)) ∧ ((0 : ℕ) < (1 : ℕ)) := by
  refine ⟨by with_unfolding_all decide, by with_unfolding_all decide, ?_, ?_⟩
  · exact (C4_leaderboard_sort_keys exRows2
        ⟨0, by with_unfolding_all decide⟩ ⟨1, by with_unfolding_all decide⟩
        ⟨0, by with_unfolding_all decide⟩
        ⟨1, by with_unfolding_all decide⟩).1
      (by with_unfolding_all decide)
  · exact (C4_leaderboard_sort_keys exRows4
        ⟨0, by with_unfolding_all decide⟩ ⟨1, by with_unfolding_all decide⟩
        ⟨0, by with_unfolding_all decide⟩
        ⟨1, by with_unfolding_all decide⟩).2.2.2
      (by with_unfolding_all decide)

/-- **C4 counterexample.** On a table where track T1 has 10 total minutes
over 1 listen and track T2 has 6 total minutes over 2 listens, the yearly
track leaderboard displayed by `spotify_history.py` `main` (sorted by
`"Total Minutes"` descending, then re-sorted by `"Listens"` descending)
lists T2 first: its first row has strictly fewer total minutes than its
second, so a track with more total minutes does not precede one with
fewer. -/
theorem C4_legacy_leaderboard_counterexample :
    ((track_leaderboard_yearly exRows4).map TrackAgg.trackName =
      ["T2", "T1"]) ∧
    ((track_leaderboard_yearly exRows4).get
        ⟨0, by with_unfolding_all decide⟩).totalMinutes <
      ((track_leaderboard_yearly exRows4).get
        ⟨1, by with_unfolding_all decide⟩).totalMinutes := by
  exact ⟨by with_unfolding_all decide, by with_unfolding_all decide⟩

/-! ### C7: density of the rank columns -/

/-- **C7 (amended).** In `compute_top_songs` and `compute_top_albums` the
`rank` column is `range(1, K + 1)`: a duplicate-free enumeration of exactly
the integers 1..K, K the number of aggregate rows.  (`compute_top_artists`
is the counterexample and is treated separately.) -/
theorem C7_dense_ranks_songs_albums (l : List Row) (k : Nat) :
    (k ∈ compute_top_songs_ranks l ↔
      1 ≤ k ∧ k ≤ (compute_top_songs_sorted l).length) ∧
    (k ∈ compute_top_albums_ranks l ↔
      1 ≤ k ∧ k ≤ (compute_top_albums_rows l).length) ∧
    (compute_top_songs_ranks l).Nodup ∧
    (compute_top_albums_ranks l).Nodup ∧
    (compute_top_songs_ranks l).length = (compute_top_songs_sorted l).length ∧
    (compute_top_albums_ranks l).length = (compute_top_albums_rows l).length := by
  have hinj : Function.Injective (fun n : Nat => n + 1) := by
    intro a b h
    simpa using h
  refine ⟨?_, ?_, ?_, ?_, ?_, ?_⟩
  · unfold compute_top_songs_ranks
    simp only [List.mem_map, List.mem_range]
    constructor
    · rintro ⟨m, hm, rfl⟩; omega
    · intro h; exact ⟨k - 1, by omega, by omega⟩
  · unfold compute_top_albums_ranks
    simp only [List.mem_map, List.mem_range]
    constructor
    · rintro ⟨m, hm, rfl⟩; omega
    · intro h; exact ⟨k - 1, by omega, by omega⟩
  · exact (List.nodup_range _).map hinj
  · exact (List.nodup_range _).map hinj
  · simp [compute_top_songs_ranks]
  · simp [compute_top_albums_ranks]

/-- **C7 counterexample.** On a three-event table (two plays of artist "A",
one of "B"), the `rank` column of `compute_top_artists` is
`[3/2, 3/2, 3]`: not a bijection onto `{1, 2, 3}` (the row count is 3), so
ranks are not dense integers `1..K` for the top-artists view. -/
theorem C7_artist_rank_counterexample :
    ((compute_top_artists_df exRows7).map fun p => p.2.2) =
      [3 / 2, 3 / 2, 3] ∧
    ¬ (((compute_top_artists_df exRows7).map fun p => p.2.2).Perm
        [(1 : ℚ), 2, 3]) := by
  have h : ((compute_top_artists_df exRows7).map fun p => p.2.2) =
      [3 / 2, 3 / 2, 3] := by
    with_unfolding_all decide
  refine ⟨h, ?_⟩
  rw [h]
  intro hperm
  have hmem : (3 / 2 : ℚ) ∈ [(1 : ℚ), 2, 3] := hperm.mem_iff.mp (by simp)
  simp only [List.mem_cons, List.not_mem_nil, or_false] at hmem
  rcases hmem with h1 | h1 | h1 <;> norm_num at h1

/-! ### C6: the derived temporal fields and the 16-hour shift -/

/-- Adding 960 minutes advances the day index exactly when the original
time of day is 08:00 or later. -/
theorem div1440_add960 (t : Nat) :
    (t + 960) / 1440 = t / 1440 + (if 480 ≤ t % 1440 then 1 else 0) := by
  have hmod : t % 1440 < 1440 := Nat.mod_lt _ (by norm_num)
  conv_lhs => rw [← Nat.div_add_mod t 1440]
  rw [Nat.add_assoc, Nat.mul_add_div (by norm_num)]
  by_cases hr : 480 ≤ t % 1440
  · rw [if_pos hr]
    have h1 : (t % 1440 + 960) / 1440 = 1 := by
      have hlo : 1440 ≤ t % 1440 + 960 := by omega
      have hhi : t % 1440 + 960 < 2 * 1440 := by omega
      omega
    rw [h1]
  · rw [if_neg hr]
    have h0 : (t % 1440 + 960) / 1440 = 0 := Nat.div_eq_of_lt (by omega)
    rw [h0]

/-- **C6 counterexample.** For an event whose parsed `endTime` is
2023-01-02 10:00 UTC, the derived `date` column is 2023-01-03 — not the
calendar date of the parsed `endTime` — because the code first shifts the
`endTime` column by +16 hours. -/
theorem C6_offset_counterexample :
    (addFeatures exEventA1).date ≠ exEventA1.endTime / 1440 ∧
    (addFeatures exEventA1).date = exEventA1.endTime / 1440 + 1 ∧
    civilFromDays (addFeatures exEventA1).date = (2023, 1, 3) ∧
    civilFromDays (exEventA1.endTime / 1440) = (2023, 1, 2) := by
  refine ⟨by decide, by decide, by decide, by decide⟩

/-- **C6 (amended).** Every derived temporal field of a processed row is
computed from the parsed `endTime` shifted forward by 16 hours: `date` is
the day index of the shifted timestamp (the UTC calendar date when the
event ends before 08:00 UTC and the following day otherwise), `dow` is that
date's weekday (Monday = 0), `week`/`year` are its ISO week and ISO
week-year, and `minutesPlayed` is exactly `msPlayed / 60000`. -/
theorem C6_derived_fields_from_shifted_time (e : Event) :
    (addFeatures e).endTime = e.endTime + 16 * 60 ∧
    (addFeatures e).date = (e.endTime + 16 * 60) / 1440 ∧
    (addFeatures e).date =
      e.endTime / 1440 + (if 480 ≤ e.endTime % 1440 then 1 else 0) ∧
    (addFeatures e).dow = weekdayOfDay (addFeatures e).date ∧
    (addFeatures e).dayOfWeekStr = dayNamesList.getD (addFeatures e).dow "" ∧
    (addFeatures e).week = (isoWeekYear (addFeatures e).date).2 ∧
    (addFeatures e).year = (isoWeekYear (addFeatures e).date).1 ∧
    (addFeatures e).minutesPlayed = Rat.divInt e.msPlayed 60000 := by
  refine ⟨rfl, rfl, ?_, rfl, rfl, rfl, rfl, rfl⟩
  show (e.endTime + 16 * 60) / 1440 =
    e.endTime / 1440 + (if 480 ≤ e.endTime % 1440 then 1 else 0)
  exact div1440_add960 e.endTime

/-! ### C5 and C8: the heatmap grid -/

/-- A `flatMap` whose branches all have length `n` has length
`|input| * n`. -/
theorem length_flatMap_const {α β : Type} (A : List α) (f : α → List β) (n : Nat)
    (h : ∀ a ∈ A, (f a).length = n) : (A.flatMap f).length = A.length * n := by
  induction A with
  | nil => simp
  | cons a A ih =>
    rw [List.flatMap_cons, List.length_append, h a (List.mem_cons_self a A),
      ih fun b hb => h b (List.mem_cons_of_mem a hb), List.length_cons,
      Nat.succ_mul, Nat.add_comm]

/-- The heatmap aggregate always has `53 * 7` rows per observed year. -/
theorem heatmap_agg_length (l : List Row) :
    (heatmap_agg l).length = 371 * (heatmapYears l).length := by
  unfold heatmap_agg
  rw [length_flatMap_const _ _ (7 * (heatmapYears l).length) ?_, List.length_range]
  · ring
  · intro w _
    rw [length_flatMap_const _ _ ((heatmapYears l).length) ?_]
    · rfl
    · intro d _
      exact List.length_map _ _

/-- The key triples of the aggregate form the product grid. -/
theorem heatmap_agg_keys (l : List Row) :
    ((heatmap_agg l).map fun c => (c.week, c.dayName, c.year)) =
      (List.range 53).flatMap fun w => dayNamesList.flatMap fun d =>
        (heatmapYears l).map fun y => (w, d, y) := by
  unfold heatmap_agg
  simp only [List.map_flatMap, List.map_map]
  rfl

theorem heatmapYears_nodup (l : List Row) : (heatmapYears l).Nodup := by
  unfold heatmapYears
  exact ((List.perm_insertionSort _ _).nodup_iff).mpr (List.nodup_dedup _)

/-- No two rows of the heatmap aggregate share a `(week, day, year)` key. -/
theorem heatmap_agg_keys_nodup (l : List Row) :
    ((heatmap_agg l).map fun c => (c.week, c.dayName, c.year)).Nodup := by
  rw [heatmap_agg_keys]
  apply List.nodup_flatMap.mpr
  constructor
  · intro w _
    apply List.nodup_flatMap.mpr
    constructor
    · intro d _
      exact (heatmapYears_nodup l).map fun y1 y2 h => by
        simpa using h
    · have hnd : dayNamesList.Nodup := by decide
      apply List.Pairwise.imp ?_ hnd
      intro d1 d2 hne x hx1 hx2
      rcases List.mem_map.mp hx1 with ⟨y1, _, rfl⟩
      rcases List.mem_map.mp hx2 with ⟨y2, _, h2⟩
      have : d2 = d1 := by
        have := congrArg (fun t => t.2.1) h2
        simpa using this
      exact hne this.symm
  · apply List.Pairwise.imp ?_ (List.pairwise_lt_range 53)
    intro w1 w2 hlt x hx1 hx2
    have hw1 : x.1 = w1 := by
      rcases List.mem_flatMap.mp hx1 with ⟨d, _, hm⟩
      rcases List.mem_map.mp hm with ⟨y, _, rfl⟩
      rfl
    have hw2 : x.1 = w2 := by
      rcases List.mem_flatMap.mp hx2 with ⟨d, _, hm⟩
      rcases List.mem_map.mp hm with ⟨y, _, rfl⟩
      rfl
    rw [hw1] at hw2
    exact absurd hw2 (Nat.ne_of_lt hlt)

/-- Field constraints on every aggregate cell: weeks run 0..52 only, the
day name is one of the seven, the year is an observed year, and the
minutes are the cell's group total. -/
theorem heatmap_agg_mem_fields (l : List Row) :
    ∀ c ∈ heatmap_agg l, c.week < 53 ∧ c.dayName ∈ dayNamesList ∧
      c.year ∈ heatmapYears l ∧
      c.minutes = heatmapCellMinutes l c.week c.dayName c.year := by
  intro c hc
  unfold heatmap_agg at hc
  rcases List.mem_flatMap.mp hc with ⟨w, hw, hc2⟩
  rcases List.mem_flatMap.mp hc2 with ⟨d, hd, hc3⟩
  rcases List.mem_map.mp hc3 with ⟨y, hy, rfl⟩
  exact ⟨List.mem_range.mp hw, hd, hy, rfl⟩

/-- The aggregate always contains the week-0 Monday cell of every observed
year — a `(week, day)` pair that exists in no ISO calendar. -/
theorem week0_cell_mem (l : List Row) (y : Nat) (hy : y ∈ heatmapYears l) :
    (⟨0, "Monday", y, heatmapCellMinutes l 0 "Monday" y⟩ : HeatCell) ∈
      heatmap_agg l := by
  unfold heatmap_agg
  apply List.mem_flatMap.mpr
  refine ⟨0, List.mem_range.mpr (by omega), ?_⟩
  apply List.mem_flatMap.mpr
  refine ⟨"Monday", by decide, ?_⟩
  exact List.mem_map_of_mem _ hy

/-- **C5 (amended).** For every event table the heatmap aggregation
produces exactly `53 * 7` cells per observed year — the full product of
week categories 0..52 (not the year's ISO weeks 1..52/53), the seven day
names, and the observed years — with no duplicate `(week, day, year)`
triple, every cell's minutes equal to its group total (so events with ISO
week 53 are counted nowhere), and a zero-calendar week-0 cell present for
every observed year. -/
theorem C5_heatmap_grid_shape (l : List Row) :
    (heatmap_agg l).length = 371 * (heatmapYears l).length ∧
    ((heatmap_agg l).map fun c => (c.week, c.dayName, c.year)).Nodup ∧
    (∀ c ∈ heatmap_agg l, c.week < 53 ∧ c.dayName ∈ dayNamesList ∧
      c.year ∈ heatmapYears l ∧
      c.minutes = heatmapCellMinutes l c.week c.dayName c.year) ∧
    (∀ y ∈ heatmapYears l,
      (⟨0, "Monday", y, heatmapCellMinutes l 0 "Monday" y⟩ : HeatCell) ∈
        heatmap_agg l) :=
  ⟨heatmap_agg_length l, heatmap_agg_keys_nodup l, heatmap_agg_mem_fields l,
    fun y hy => week0_cell_mem l y hy⟩

/-- Witness for C5 on a one-event table of ISO year 2023. -/
theorem C5_heatmap_grid_witness :
    (heatmap_agg [rowB]).length = 371 * (heatmapYears [rowB]).length ∧
    (⟨0, "Monday", 2023,
      heatmapCellMinutes [rowB] 0 "Monday" 2023⟩ : HeatCell) ∈
      heatmap_agg [rowB] :=
  ⟨(C5_heatmap_grid_shape [rowB]).1,
    (C5_heatmap_grid_shape [rowB]).2.2.2 2023 (by decide)⟩

/-- **C5 counterexample.** On a one-event table of ISO year 2023 — a year
with 52 ISO weeks — the aggregation yields 371 cells, not `52 * 7 = 364`,
and it contains a cell for week 0, a week number belonging to no year's
ISO calendar. -/
theorem C5_grid_counterexample :
    (heatmap_agg [rowB]).length = 371 ∧
    isoWeeksInYear 2023 = 52 ∧
    (371 : Nat) ≠ 52 * 7 ∧
    (⟨0, "Monday", 2023,
      heatmapCellMinutes [rowB] 0 "Monday" 2023⟩ : HeatCell) ∈
      heatmap_agg [rowB] := by
  refine ⟨?_, by decide, by decide, week0_cell_mem [rowB] 2023 (by decide)⟩
  rw [heatmap_agg_length]
  have h1 : (heatmapYears [rowB]).length = 1 := by decide
  rw [h1]

/-- Splitting the merged rows into null-date and dated parts loses no
row. -/
theorem heatmap_with_dates_length (l : List Row) :
    (heatmap_with_dates l).length = (mergedCells l).length := by
  unfold heatmap_with_dates
  rw [List.length_append, List.length_map]
  generalize mergedCells l = L
  induction L with
  | nil => simp
  | cons p L ih =>
    obtain ⟨c, o⟩ := p
    cases o with
    | none =>
      have h1 : List.filter (fun p => p.2.isNone)
          (((c, none) : HeatCell × Option Nat) :: L) =
          (c, none) :: List.filter (fun p => p.2.isNone) L := by
        simp [List.filter_cons]
      have h2 : List.filterMap (fun p => p.2.map fun d => (p.1, (d : Int)))
          (((c, none) : HeatCell × Option Nat) :: L) =
          List.filterMap (fun p => p.2.map fun d => (p.1, (d : Int))) L := by
        simp [List.filterMap_cons]
      rw [h1, h2, List.length_cons, List.length_cons]
      omega
    | some d =>
      have h1 : List.filter (fun p => p.2.isNone)
          (((c, some d) : HeatCell × Option Nat) :: L) =
          List.filter (fun p => p.2.isNone) L := by
        simp [List.filter_cons]
      have h2 : List.filterMap (fun p => p.2.map fun e => (p.1, (e : Int)))
          (((c, some d) : HeatCell × Option Nat) :: L) =
          (c, (d : Int)) :: List.filterMap
            (fun p => p.2.map fun e => (p.1, (e : Int))) L := by
        simp [List.filterMap_cons]
      rw [h1, h2, List.length_cons, List.length_cons]
      omega

/-- ISO week numbers are always at least 1: week 0 is calendar-invalid. -/
theorem isoWeek_pos (n : Nat) : 1 ≤ (isoWeekYear n).2 :=
  Nat.le_add_left 1 _

/-- A cell with no matching source rows appears in the merge paired with
`none`. -/
theorem mergedCells_none_mem {l : List Row} {c : HeatCell}
    (hc : c ∈ heatmap_agg l)
    (hno : (l.filter fun r =>
      decide (r.week = c.week ∧ r.dayOfWeekStr = c.dayName ∧
        r.year = c.year)) = []) :
    (c, (none : Option Nat)) ∈ mergedCells l := by
  unfold mergedCells
  apply List.mem_flatMap.mpr
  refine ⟨c, hc, ?_⟩
  simp only [hno]
  exact List.mem_singleton_self _

/-- A missing cell reaches the final dated grid with a reconstructed date:
it is not skipped. -/
theorem synth_cell_mem {l : List Row} {c : HeatCell}
    (hc : c ∈ heatmap_agg l)
    (hno : (l.filter fun r =>
      decide (r.week = c.week ∧ r.dayOfWeekStr = c.dayName ∧
        r.year = c.year)) = []) :
    (c, build_date_from_pieces c.year c.week c.dayName) ∈
      heatmap_with_dates l := by
  unfold heatmap_with_dates
  apply List.mem_append_left
  apply List.mem_map.mpr
  exact ⟨(c, none),
    List.mem_filter.mpr ⟨mergedCells_none_mem hc hno, by simp⟩, rfl⟩

/-- **C8 (amended).** The heatmap date-reconstruction step is total and
skips nothing: the dated grid has exactly one row per merged row, every
merged cell with a null date appears in the output with the
`build_date_from_pieces` reconstruction (Monday-based `%W` week
arithmetic, which never raises and may land in an adjacent year), and the
calendar-invalid week number 0 — which no date's ISO week equals — is
reconstructed like any other rather than skipped. -/
theorem C8_missing_cells_synthesized_not_skipped (l : List Row) :
    (heatmap_with_dates l).length = (mergedCells l).length ∧
    (∀ p ∈ mergedCells l, p.2 = none →
      (p.1, build_date_from_pieces p.1.year p.1.week p.1.dayName) ∈
        heatmap_with_dates l) ∧
    (∀ n : Nat, 1 ≤ (isoWeekYear n).2) := by
  refine ⟨heatmap_with_dates_length l, ?_, isoWeek_pos⟩
  intro p hp hnone
  unfold heatmap_with_dates
  apply List.mem_append_left
  apply List.mem_map.mpr
  exact ⟨p, List.mem_filter.mpr ⟨hp, by simp [hnone]⟩, rfl⟩

/-- Witness for C8: on the one-event 2023 table, the (calendar-invalid)
week-0 Monday cell is missing from the events and appears in the dated
grid with its reconstructed date. -/
theorem C8_synthesis_witness :
    ((⟨0, "Monday", 2023,
        heatmapCellMinutes [rowB] 0 "Monday" 2023⟩ : HeatCell),
      build_date_from_pieces 2023 0 "Monday") ∈
      heatmap_with_dates [rowB] :=
  (C8_missing_cells_synthesized_not_skipped [rowB]).2.1
    (⟨0, "Monday", 2023, heatmapCellMinutes [rowB] 0 "Monday" 2023⟩, none)
    (mergedCells_none_mem (week0_cell_mem [rowB] 2023 (by decide)) (by decide))
    rfl

/-- **C8 counterexample.** The triple (year 2023, week 0, Monday) is
calendar-invalid — no date has ISO week 0 — yet its cell is not skipped:
`build_date_from_pieces` totalizes the `%W` arithmetic and lands on
2022-12-26 (ISO week 52 of 2022), and the cell appears in the dated grid
with that date. -/
theorem C8_invalid_cell_not_skipped_counterexample :
    build_date_from_pieces 2023 0 "Monday" =
      ((daysFromCivil 2022 12 26 : Nat) : Int) ∧
    isoWeekYear (daysFromCivil 2022 12 26) = (2022, 52) ∧
    ((⟨0, "Monday", 2023,
        heatmapCellMinutes [rowB] 0 "Monday" 2023⟩ : HeatCell),
      build_date_from_pieces 2023 0 "Monday") ∈
      heatmap_with_dates [rowB] := by
  refine ⟨by decide, by decide, ?_⟩
  exact synth_cell_mem (week0_cell_mem [rowB] 2023 (by decide)) (by decide)

end SpotifyHistory
